import Mathlib

/-!
Shallow embedding of the TerriaJS share-state serialization engine
(`BuildShareLink.js`), the feedback share-link selection (`sendFeedback.js`)
and the ArcGIS catalog-group provider adapter (`ArcGisCatalogGroup.js`).

Pure functions of the source are translated directly; stateful fragments
(the rejection-remembering filter wrapper, the in-place ancestor-pruning pass
over a JavaScript object) are translated into explicit state passing.  Code of
the repository that is referenced but not part of the sample (for example
`CatalogMember#serializeToJson`, `combineFilters`, `replaceUnderscores`,
`hashEntity`) is modelled from the specification; each such definition carries
a doc comment saying so.
-/

/-- Modelled from the spec: `combineFilters` (Core/combineFilters, not in the
sample) composes a pluggable predicate chain; a value passes the combined
filter exactly when it passes every filter of the list, evaluated in order. -/
def combineFilters {α : Type} (filters : List (α → Bool)) (x : α) : Bool :=
  filters.all fun f => f x

/-- Modelled from the spec: `replaceUnderscores` (Core/replaceUnderscores, not
in the sample) replaces every underscore of a display name by a space. -/
def replaceUnderscores (s : String) : String :=
  (s.data.map fun c => if c = '_' then ' ' else c).asString

/-- Dropping `n` leading characters, modelling `String.prototype.substring`
with a clamped start index. -/
def strDrop (s : String) (n : Nat) : String :=
  (s.data.drop n).asString

/-- The test `name.indexOf(other) === 0`, i.e. `other` is a leading substring. -/
def strIsPrefixOf (p s : String) : Bool :=
  p.data.isPrefixOf s.data

/-- A catalog node as seen by the serialization engine.  Identity and share
bookkeeping fields (`id`, `isEnabled`, `isOpen`, `isUserSupplied`, `url`, the
serialized ancestor-id chain `parents`) are modelled structurally; the
remaining serialized properties are modelled as the list of their names
(`props`); `hasLocalData` models the data used by the no-local-data item
filter; `items` is the ordered children sequence. -/
inductive CatalogNode : Type where
  | mk (id : String) (isEnabled : Bool) (isOpen : Bool) (isUserSupplied : Bool)
      (hasLocalData : Bool) (url : Option String) (parents : List String)
      (props : List String) (items : List CatalogNode)

def CatalogNode.id : CatalogNode → String
  | .mk i _ _ _ _ _ _ _ _ => i

def CatalogNode.isEnabled : CatalogNode → Bool
  | .mk _ e _ _ _ _ _ _ _ => e

def CatalogNode.isOpen : CatalogNode → Bool
  | .mk _ _ o _ _ _ _ _ _ => o

def CatalogNode.isUserSupplied : CatalogNode → Bool
  | .mk _ _ _ us _ _ _ _ _ => us

def CatalogNode.hasLocalData : CatalogNode → Bool
  | .mk _ _ _ _ hl _ _ _ _ => hl

def CatalogNode.url : CatalogNode → Option String
  | .mk _ _ _ _ _ u _ _ _ => u

def CatalogNode.parents : CatalogNode → List String
  | .mk _ _ _ _ _ _ par _ _ => par

def CatalogNode.props : CatalogNode → List String
  | .mk _ _ _ _ _ _ _ pr _ => pr

def CatalogNode.items : CatalogNode → List CatalogNode
  | .mk _ _ _ _ _ _ _ _ its => its

/-- Replace the children list of a node (used where the source assigns to the
`items` property of a serialized node). -/
def CatalogNode.withItems : CatalogNode → List CatalogNode → CatalogNode
  | .mk i e o us hl u par pr _, its => .mk i e o us hl u par pr its

/-- Clear the id of a serialized entry (src part_002 line 121 sets
`item.id = undefined`; the cleared id is modelled as the empty string). -/
def clearId : CatalogNode → CatalogNode
  | .mk _ e o us hl u par pr its => .mk "" e o us hl u par pr its

/-- Modelled from the spec: `CatalogMember.itemFilters.noLocalData` (not in the
sample) excludes nodes whose data is held locally and cannot travel in a link. -/
def noLocalData (n : CatalogNode) : Bool :=
  !n.hasLocalData

/-- Modelled from the spec: `CatalogMember.itemFilters.userSuppliedOnly` (not in
the sample) keeps exactly the nodes added by the user at runtime. -/
def userSuppliedOnly (n : CatalogNode) : Bool :=
  n.isUserSupplied

/-- Modelled from the spec: `CatalogMember#serializeToJson` (not in the sample)
walks the catalog tree, keeps the nodes accepted by the item filter (the
subtree of a rejected node is not serialized), and projects each kept node's
property set through the property filter. -/
def serializeToJson (itemFilter : CatalogNode → Bool) (propertyFilter : String → Bool) :
    List CatalogNode → List CatalogNode
  | [] => []
  | CatalogNode.mk i e o us hl u par pr its :: rest =>
    if itemFilter (CatalogNode.mk i e o us hl u par pr its) then
      CatalogNode.mk i e o us hl u par (pr.filter propertyFilter)
          (serializeToJson itemFilter propertyFilter its) ::
        serializeToJson itemFilter propertyFilter rest
    else
      serializeToJson itemFilter propertyFilter rest

/-- Model of `flattenCatalog` (src part_002 lines 293-304): flattens the serialized
hierarchy into an array, pushing each item before its flattened children and
clearing the `items` field of every pushed item. -/
def flattenCatalog : List CatalogNode → List CatalogNode
  | [] => []
  | CatalogNode.mk i e o us hl u par pr its :: rest =>
    CatalogNode.mk i e o us hl u par pr [] ::
      (flattenCatalog its ++ flattenCatalog rest)

/-- The property filter passed to `serializeToJson` by `addSharedMembers`
(src part_002 lines 111-116): the shared-only property filter combined with a
predicate rejecting the `name` property.  `sharedOnly` itself is external
configuration (`CatalogMember.propertyFilters.sharedOnly`), kept as a
parameter. -/
def sharedPropertyFilter (sharedOnly : String → Bool) : String → Bool :=
  combineFilters [sharedOnly, fun property => !(property == "name")]

/-- The flattened and filtered list of serialized members from which the
`sharedCatalogMembers` object is built (src part_002 lines 107-119). -/
def catalogForSharingList (sharedOnly : String → Bool) (catalog : List CatalogNode) :
    List CatalogNode :=
  (flattenCatalog
      (serializeToJson (combineFilters [noLocalData]) (sharedPropertyFilter sharedOnly)
        catalog)).filter
    fun item => item.isEnabled || item.isOpen

/-- The `sharedCatalogMembers` object, modelled as a partial map from ids. -/
abbrev SharedMapping := String → Option CatalogNode

def mapUpdate (m : SharedMapping) (k : String) (v : Option CatalogNode) : SharedMapping :=
  fun q => if q = k then v else m q

/-- The reduce of src part_002 lines 119-123: `soFar[item.id] = item`, the
stored entry's id being cleared immediately afterwards. -/
def buildSharedMapping (l : List CatalogNode) : SharedMapping :=
  l.foldl (fun m item => mapUpdate m item.id (some (clearId item))) fun _ => none

/-- First-occurrence deduplication, modelling the first-insertion key order of
a JavaScript object as reported by `Object.keys`. -/
def dedupFirstAux (seen : List String) : List String → List String
  | [] => []
  | k :: rest =>
    if k ∈ seen then dedupFirstAux seen rest else k :: dedupFirstAux (k :: seen) rest

def dedupFirst (l : List String) : List String :=
  dedupFirstAux [] l

def sharedKeys (sharedOnly : String → Bool) (catalog : List CatalogNode) : List String :=
  dedupFirst ((catalogForSharingList sharedOnly catalog).map CatalogNode.id)

/-- One iteration of the ancestor-pruning pass (src part_002 lines 126-133): an
entry that is open and has some ancestor id mapped to nothing (absent from the
object, or already pruned earlier in the pass) is set to undefined. -/
def pruneStep (m : SharedMapping) (key : String) : SharedMapping :=
  match m key with
  | none => m
  | some item =>
    if item.isOpen && item.parents.any (fun parentId => (m parentId).isNone) then
      mapUpdate m key none
    else
      m

/-- The full ancestor-pruning pass, iterating `pruneStep` over the object keys
in first-insertion order (src part_002 lines 126-133). -/
def pruneSharedMapping (m : SharedMapping) (keys : List String) : SharedMapping :=
  keys.foldl pruneStep m

def sharedMappingPre (sharedOnly : String → Bool) (catalog : List CatalogNode) :
    SharedMapping :=
  buildSharedMapping (catalogForSharingList sharedOnly catalog)

def sharedMappingFinal (sharedOnly : String → Bool) (catalog : List CatalogNode) :
    SharedMapping :=
  pruneSharedMapping (sharedMappingPre sharedOnly catalog) (sharedKeys sharedOnly catalog)

/-- Model of `addSharedMembers` (src part_002 lines 106-140): the resulting
`sharedCatalogMembers` init fragment, emitted exactly when the object has at
least one key.  A pruned entry keeps its key in the JavaScript object (the pass
assigns `undefined` instead of deleting), so the emptiness test looks at the
pre-prune key set. -/
def addSharedMembers (sharedOnly : String → Bool) (catalog : List CatalogNode) :
    Option SharedMapping :=
  if sharedKeys sharedOnly catalog = [] then none
  else some (sharedMappingFinal sharedOnly catalog)

def abcSharedOnly : String → Bool := fun _ => true

def nodeC : CatalogNode := .mk "C" false true false false none ["A", "B"] [] []

def nodeB : CatalogNode := .mk "B" false false false false none ["A"] [] [nodeC]

def nodeA : CatalogNode := .mk "A" false true false false none [] [] [nodeB]

def abcCatalog : List CatalogNode := [nodeA]

/-- One call of the filter wrapped by `rememberRejections` (src part_002 lines
272-287), threading the rejections array explicitly: the verdict is exactly the
wrapped function's verdict, and a rejected item is appended to the array. -/
def rememberRejectionsStep (filterFn : CatalogNode → Bool) (rejections : List CatalogNode)
    (item : CatalogNode) : Bool × List CatalogNode :=
  (filterFn item, if filterFn item then rejections else rejections ++ [item])

/-- The third item filter of `addUserAddedCatalog` (src part_002 lines 83-88):
`!item.parent || !item.parent.url`, the parent being supplied by the walk. -/
def parentUrlAbsent (parent : Option CatalogNode) : CatalogNode → Bool :=
  fun _ =>
    match parent with
    | none => true
    | some p => p.url.isNone

/-- The composed item filter chain of `addUserAddedCatalog` (src part_002 lines
80-89): no-local-data, user-supplied-only, and the parent-url predicate. -/
def userAddedItemFilter (parent : Option CatalogNode) (n : CatalogNode) : Bool :=
  combineFilters [noLocalData, userSuppliedOnly, parentUrlAbsent parent] n

/-- The serialization walk performed by `terria.catalog.serializeToJson` for
`addUserAddedCatalog` (src part_002 lines 76-100).  The walk itself is modelled
from the spec (`CatalogMember#serializeToJson` is not in the sample): each node
is tested by the composed filter chain, whose first member is the
rejection-remembering no-local-data wrapper; a kept node is serialized with its
serialized children, a rejected node is dropped with its subtree. -/
def addUserAddedWalk : Option CatalogNode → List CatalogNode → List CatalogNode →
    List CatalogNode × List CatalogNode
  | _, [], rejections => ([], rejections)
  | parent, CatalogNode.mk i e o us hld u par pr its :: rest, rejections =>
    let n := CatalogNode.mk i e o us hld u par pr its
    let step := rememberRejectionsStep noLocalData rejections n
    if step.1 && userSuppliedOnly n && parentUrlAbsent parent n then
      let sub := addUserAddedWalk (some n) its step.2
      let restR := addUserAddedWalk parent rest sub.2
      (CatalogNode.mk i e o us hld u par pr sub.1 :: restR.1, restR.2)
    else
      addUserAddedWalk parent rest step.2

/-- Model of `addUserAddedCatalog` (src part_002 lines 76-100): the `catalog` init
fragment (emitted only when non-empty) together with the rejections array the
function returns. -/
def addUserAddedCatalog (catalog : List CatalogNode) :
    Option (List CatalogNode) × List CatalogNode :=
  (if (addUserAddedWalk none catalog []).1.length > 0
    then some (addUserAddedWalk none catalog []).1 else none,
   (addUserAddedWalk none catalog []).2)

/-- The nodes kept by the composed filter chain, written directly from the
claim: a node is in the fragment exactly when it passes the chain (its subtree
being considered only when it passes). -/
def keptForest : Option CatalogNode → List CatalogNode → List CatalogNode
  | _, [] => []
  | parent, CatalogNode.mk i e o us hld u par pr its :: rest =>
    if userAddedItemFilter parent (CatalogNode.mk i e o us hld u par pr its) then
      CatalogNode.mk i e o us hld u par pr
          (keptForest (some (CatalogNode.mk i e o us hld u par pr its)) its) ::
        keptForest parent rest
    else
      keptForest parent rest

/-- The nodes rejected by the no-local-data filter during the walk, in visit
order, written directly from the claim. -/
def rejectedNodes : Option CatalogNode → List CatalogNode → List CatalogNode
  | _, [] => []
  | parent, CatalogNode.mk i e o us hld u par pr its :: rest =>
    (if noLocalData (CatalogNode.mk i e o us hld u par pr its) then []
      else [CatalogNode.mk i e o us hld u par pr its]) ++
      (if userAddedItemFilter parent (CatalogNode.mk i e o us hld u par pr its) then
        rejectedNodes (some (CatalogNode.mk i e o us hld u par pr its)) its
      else []) ++
      rejectedNodes parent rest

structure ClockTime where
  dayNumber : Int
  secondsOfDay : Int
deriving DecidableEq

/-- A picked map feature: its display name, the imagery layer backing it (none
for vector features), and its visible attributes (used by the content hash). -/
structure Entity where
  name : String
  imageryLayer : Option String
  attrs : List String
deriving DecidableEq

/-- Modelled from the spec: `hashEntity` (Core/hashEntity, not in the sample) is
a content-stable digest over the entity's visible attributes together with the
current clock time. -/
def hashEntity (entity : Entity) (clock : ClockTime) : String :=
  String.intercalate "," entity.attrs ++ "@" ++ toString clock.dayNumber ++ ":" ++
    toString clock.secondsOfDay

/-- The name-plus-hash record stored for a picked entity. -/
structure EntityRef where
  name : String
  hash : String
deriving DecidableEq

/-- The picked-feature state of the Terria instance.  The geographic pick
coordinates are carried as already-converted integers; no claim depends on the
radians-to-degrees arithmetic. -/
structure PickedState where
  providerCoords : String
  pickLat : Int
  pickLng : Int
  pickHeight : Int
  features : List Entity
deriving DecidableEq

structure PickedFragment where
  providerCoords : String
  pickLat : Int
  pickLng : Int
  pickHeight : Int
  current : Option EntityRef
  entities : List EntityRef
deriving DecidableEq

/-- The view-settings payload (camera rectangles, viewer mode, clock, base map,
splitter).  No claim depends on its contents, so it is carried opaquely. -/
structure ViewSettings where
  payload : String
deriving DecidableEq

structure LocMarker where
  name : String
  lat : Int
  lng : Int
deriving DecidableEq

/-- One init fragment of a share document (spec section 3, ShareDocument). -/
inductive InitSource where
  | catalog (members : List CatalogNode)
  | sharedCatalogMembers (mapping : SharedMapping)
  | viewSettings (settings : ViewSettings)
  | pickedFeatures (fragment : PickedFragment)
  | locationMarker (marker : LocMarker)
  | preexisting (tag : String)

structure ShareDocument where
  version : String
  initSources : List InitSource

/-- A value carried by one parameter of the URI fragment. -/
inductive FragVal where
  | doc (document : ShareDocument)
  | str (value : String)
  | token (value : String)

/-- A share URI, modelled structurally: the application base location plus the
list of fragment parameters (name, optional value) in order.  `buildShareLink`
produces `base#start=...&...`; the short form is `base#share=<token>`. -/
structure ShareUri where
  base : String
  fragmentParams : List (String × Option FragVal)

structure UrlShortener where
  isUsable : Bool
  shorten : ShareUri → String

structure ShareDataService where
  isUsable : Bool
  getShareToken : ShareDocument → String

/-- The slice of the Terria instance consumed by the share-link builder. -/
structure Terria where
  windowLocation : String
  initSources : List InitSource
  catalog : List CatalogNode
  sharedOnly : String → Bool
  userProperties : String → Option String
  urlShortener : Option UrlShortener
  shareDataService : Option ShareDataService
  viewSettings : ViewSettings
  pickedFeatures : Option PickedState
  selectedFeature : Option Entity
  clock : ClockTime
  locationMarker : Option LocMarker

/-- Model of `addViewSettings` (src part_002 lines 146-204): always pushes one settings
fragment; its numeric payload is opaque here. -/
def addViewSettingsSource (t : Terria) : InitSource :=
  InitSource.viewSettings t.viewSettings

/-- Model of `addFeaturePicking` (src part_002 lines 210-244): emitted only when picked
features exist and are non-empty; `current` records the selected feature as
name plus content hash; `entities` records exactly the picked features that
have no imagery layer, each as name plus content hash. -/
def addFeaturePicking (t : Terria) : Option InitSource :=
  match t.pickedFeatures with
  | none => none
  | some pf =>
    if pf.features.length > 0 then
      some (InitSource.pickedFeatures
        ⟨pf.providerCoords, pf.pickLat, pf.pickLng, pf.pickHeight,
          t.selectedFeature.map fun f => ⟨f.name, hashEntity f t.clock⟩,
          (pf.features.filter fun f => f.imageryLayer.isNone).map
            fun entity => ⟨entity.name, hashEntity entity t.clock⟩⟩)
    else none

/-- Model of `addLocationMarker` (src part_002 lines 250-263). -/
def addLocationMarker (t : Terria) : Option InitSource :=
  t.locationMarker.map InitSource.locationMarker

/-- Model of `getShareData` (src part_002 lines 35-48): the versioned share document,
assembling the init fragments in source order after the pre-existing ones. -/
def getShareData (t : Terria) : ShareDocument :=
  ⟨"0.0.05",
    t.initSources ++
      ((addUserAddedCatalog t.catalog).1.map InitSource.catalog).toList ++
      ((addSharedMembers t.sharedOnly t.catalog).map
        InitSource.sharedCatalogMembers).toList ++
      [addViewSettingsSource t] ++
      (addFeaturePicking t).toList ++
      (addLocationMarker t).toList⟩

def userPropWhiteList : List String :=
  ["hideExplorerPanel", "activeTabId"]

/-- Model of `buildShareLink` (src part_002 lines 21-28): the full-form share link.  The
first fragment parameter is start=<share data JSON>; then, for each entry of
the user-property whitelist, the parameter added by
`uri.addSearch({ key: terria.userProperties[key] })`.  Note the source object
literal uses the literal property name `key` rather than the computed key, so
every appended parameter is named "key"; a missing user property yields a
parameter without a value. -/
def buildShareLink (t : Terria) : ShareUri :=
  ⟨t.windowLocation,
    ("start", some (FragVal.doc (getShareData t))) ::
      userPropWhiteList.map fun key => ("key", (t.userProperties key).map FragVal.str)⟩

/-- Model of `canShorten` (src part_002 lines 54-56). -/
def canShorten (t : Terria) : Bool :=
  (match t.urlShortener with
    | some shortener => shortener.isUsable
    | none => false) ||
  (match t.shareDataService with
    | some service => service.isUsable
    | none => false)

/-- Model of `buildShortShareLink` (src part_002 lines 63-70): the token-form share
link, via the share-data service when defined, else via the url shortener.
`none` models the TypeError the source would hit when neither collaborator is
defined (the source comments that the shortener is assumed defined). -/
def buildShortShareLink (t : Terria) : Option ShareUri :=
  match t.shareDataService with
  | some service =>
    some ⟨t.windowLocation,
      [("share", some (FragVal.token (service.getShareToken (getShareData t))))]⟩
  | none =>
    match t.urlShortener with
    | some shortener =>
      some ⟨t.windowLocation,
        [("share", some (FragVal.token (shortener.shorten (buildShareLink t))))]⟩
    | none => none

def ShareUri.isStartForm : ShareUri → Bool
  | ⟨_, ("start", some (FragVal.doc _)) :: _⟩ => true
  | _ => false

def ShareUri.isTokenForm : ShareUri → Bool
  | ⟨_, [("share", some (FragVal.token _))]⟩ => true
  | _ => false

/-- The share-link outcome of `sendFeedback` (src part_003 lines 565-569). -/
inductive FeedbackShareLink where
  | notShared
  | link (uri : ShareUri)
  | unavailable

/-- The share-link selection of `sendFeedback` (src part_003 lines 565-569):
`options.sendShareURL ? (canShorten ? buildShortShareLink : buildShareLink)
: "Not shared"` — a capability check, with no error handling around the
shorten call. -/
def sendFeedbackShareLink (sendShareURL : Bool) (t : Terria) : FeedbackShareLink :=
  if sendShareURL then
    if canShorten t then
      match buildShortShareLink t with
      | some uri => FeedbackShareLink.link uri
      | none => FeedbackShareLink.unavailable
    else
      FeedbackShareLink.link (buildShareLink t)
  else
    FeedbackShareLink.notShared

def claim2Terria : Terria :=
  ⟨"appbase", [], [], fun _ => true, fun _ => none, none, none, ⟨"view"⟩,
    none, none, ⟨0, 0⟩, none⟩

def feedbackUserProps : String → Option String :=
  fun key => if key = "hideExplorerPanel" then some "1" else none

def shareTerriaExample : Terria :=
  ⟨"appbase", [], [], fun _ => true, feedbackUserProps, none,
    some ⟨true, fun _ => "TOKEN"⟩, ⟨"view"⟩, none, none, ⟨0, 0⟩, none⟩

def pickedExample : PickedState :=
  ⟨"pc", 1, 2, 3, [⟨"raster", some "layer", ["x"]⟩, ⟨"vector", none, ["y"]⟩]⟩

def pickingTerriaExample : Terria :=
  ⟨"appbase", [], [], fun _ => true, fun _ => none, none, none, ⟨"view"⟩,
    some pickedExample, none, ⟨5, 7⟩, none⟩

/-- The regex test `/\/MapServer\/?$/i` of src part_003 line 391: the lowered
url ends with "/mapserver", optionally followed by one slash. -/
def lowerChars (s : String) : List Char :=
  s.data.map Char.toLower

def matchesMapServerSuffix (url : String) : Bool :=
  "/mapserver".data.isSuffixOf (lowerChars url) ||
    "/mapserver/".data.isSuffixOf (lowerChars url)

/-- The regex test `/\/FeatureServer\/?$/i` of src part_003 line 393. -/
def matchesFeatureServerSuffix (url : String) : Bool :=
  "/featureserver".data.isSuffixOf (lowerChars url) ||
    "/featureserver/".data.isSuffixOf (lowerChars url)

inductive ArcGisLoader where
  | mapServer
  | featureServer
  | genericRest
deriving DecidableEq

/-- The loader dispatch of `ArcGisCatalogGroup.prototype._load` (src part_003
lines 389-398): MapServer suffix first, then FeatureServer suffix, else the
generic REST loader; a pure function of the url. -/
def arcGisLoadDispatch (url : String) : ArcGisLoader :=
  if matchesMapServerSuffix url then ArcGisLoader.mapServer
  else if matchesFeatureServerSuffix url then ArcGisLoader.featureServer
  else ArcGisLoader.genericRest

/-- A typed TerriaError (Core/TerriaError).  Only the title and the presence of
a sender are modelled; the long HTML message bodies carry no behavior. -/
structure TerriaError where
  title : String
  hasSender : Bool
deriving DecidableEq

/-- The validation error of src part_003 lines 409-417 (thrown inside the then
handler, before any child is created). -/
def invalidServerError : TerriaError :=
  ⟨"Invalid ArcGIS Server", false⟩

/-- The error raised by the otherwise handler of src part_003 lines 437-454
(it carries the group as sender). -/
def groupNotAvailableError : TerriaError :=
  ⟨"Group is not available", true⟩

structure ArcService where
  name : String
  type : String
deriving DecidableEq

/-- The JSON body answered by the ArcGIS REST endpoint: optional folder list,
optional service list (`f=json` on the service root). -/
structure ServiceJson where
  folders : Option (List String)
  services : Option (List ArcService)
deriving DecidableEq

inductive ChildKind where
  | esriGroup
  | esriMapServerGroup
  | esriFeatureServerGroup
deriving DecidableEq

structure ChildGroup where
  kind : ChildKind
  name : String
  url : String
deriving DecidableEq

/-- Index of the first occurrence of `needle` in `hay`, modelling
`String.prototype.indexOf` and the regex search of `getBasePath`. -/
def findSubstringIdx (needle : List Char) : List Char → Option Nat
  | [] => if needle.isPrefixOf ([] : List Char) then some 0 else none
  | a :: rest =>
    if needle.isPrefixOf (a :: rest) then some 0
    else (findSubstringIdx needle rest).map (· + 1)

/-- Model of `getBasePath` (src part_003 lines 518-525): the capture of
`/rest\/services\/(.*)/i` on the group url — everything after the first
case-insensitive occurrence of "rest/services/" — or the empty string. -/
def getBasePath (url : String) : String :=
  match findSubstringIdx "rest/services/".data (lowerChars url) with
  | some idx => strDrop url (idx + "rest/services/".length)
  | none => ""

/-- Model of `removePathFromName` (src part_003 lines 527-538): an empty base path
leaves the name whole; when the name starts with the base path
(`name.indexOf(basePath) === 0`), `basePath.length + 1` leading characters are
removed (the prefix and the following separator); otherwise the name is kept
whole. -/
def removePathFromName (basePath name : String) : String :=
  if basePath = "" then name
  else if strIsPrefixOf basePath name then strDrop name (basePath.length + 1)
  else name

/-- Appending one path segment, modelling `new URI(url).segment(name)`. -/
def addUriSegment (url segment : String) : String :=
  url ++ "/" ++ segment

/-- Model of `createGroup` (src part_003 lines 467-483): the child group created for an
upstream folder name. -/
def createGroupChild (parentUrl basePath folderName : String) : ChildGroup :=
  ⟨ChildKind.esriGroup,
    replaceUnderscores (removePathFromName basePath folderName),
    addUriSegment parentUrl (removePathFromName basePath folderName)⟩

def validServerTypes : List String :=
  ["MapServer", "FeatureServer"]

/-- Model of `createMapOrFeatureServer` (src part_003 lines 485-516): a service whose
type is not in `validServerTypes` yields no child (early return); index 0
selects the MapServer group type, otherwise the FeatureServer group type. -/
def createMapOrFeatureServerChild (parentUrl basePath : String) (service : ArcService) :
    Option ChildGroup :=
  if validServerTypes.indexOf service.type < validServerTypes.length then
    some ⟨if validServerTypes.indexOf service.type = 0 then ChildKind.esriMapServerGroup
        else ChildKind.esriFeatureServerGroup,
      replaceUnderscores (removePathFromName basePath service.name),
      addUriSegment (addUriSegment parentUrl (removePathFromName basePath service.name))
        service.type⟩
  else none

/-- The children created by the loops of src part_003 lines 420-436: all
folders in listing order, then the valid services in listing order. -/
def loadRestChildren (url : String) (serviceJson : ServiceJson) : List ChildGroup :=
  (serviceJson.folders.getD []).map (createGroupChild url (getBasePath url)) ++
    (serviceJson.services.getD []).filterMap
      (createMapOrFeatureServerChild url (getBasePath url))

/-- The then handler of `loadRest` (src part_003 lines 406-436): the response
is rejected with the typed validation error when it is null or has neither
folders nor services (the check precedes the creation loops); otherwise the
children are created. -/
def loadRestThen (url : String) : Option ServiceJson → Except TerriaError (List ChildGroup)
  | none => Except.error invalidServerError
  | some j =>
    if j.folders.isNone && j.services.isNone then Except.error invalidServerError
    else Except.ok (loadRestChildren url j)

/-- Model of `loadRest` (src part_003 lines 400-455).  The promise chain
`loadJson(url).then(populate).otherwise(raise)` is modelled as a total function
from the transport outcome; `Except.error` models a rejected promise, so the
function never throws synchronously.  The otherwise handler also catches the
validation error thrown inside then, replacing it with the
group-not-available error. -/
def loadRest (url : String) (response : Except Unit (Option ServiceJson)) :
    Except TerriaError (List ChildGroup) :=
  match response with
  | Except.error _ => Except.error groupNotAvailableError
  | Except.ok serviceJson =>
    match loadRestThen url serviceJson with
    | Except.error _ => Except.error groupNotAvailableError
    | Except.ok children => Except.ok children

/-- The children actually added to the group (the side effect of the creation
loops): empty on every failure path, since validation precedes the loops. -/
def loadRestChildrenAdded (url : String) (response : Except Unit (Option ServiceJson)) :
    List ChildGroup :=
  match response with
  | Except.error _ => []
  | Except.ok serviceJson =>
    match loadRestThen url serviceJson with
    | Except.error _ => []
    | Except.ok children => children

/-- The naming rule exactly as the claim words it: the bare base-path prefix
stripped, nothing more, when the identifier begins with it. -/
def claimChildName (basePath identifier : String) : String :=
  replaceUnderscores
    (if strIsPrefixOf basePath identifier then strDrop identifier basePath.length
      else identifier)

/-- The total child constructor for a valid service, written from the claim:
kind by service type, local name underscore-replaced. -/
def serviceChild (url basePath : String) (service : ArcService) : ChildGroup :=
  ⟨if service.type = "MapServer" then ChildKind.esriMapServerGroup
      else ChildKind.esriFeatureServerGroup,
    replaceUnderscores (removePathFromName basePath service.name),
    addUriSegment (addUriSegment url (removePathFromName basePath service.name))
      service.type⟩

def arcServicesExample : List ArcService :=
  [⟨"S", "GPServer"⟩, ⟨"Nested/Map_Svc", "MapServer"⟩]

def arcJsonExample : ServiceJson :=
  ⟨some ["F"], some arcServicesExample⟩

def userAddedExampleCatalog : List CatalogNode :=
  [CatalogNode.mk "g" false false true false (some "http://x") [] []
    [CatalogNode.mk "i" true false true false none ["g"] [] []]]

theorem pruneStep_none (m : SharedMapping) (key k : String) (h : m k = none) :
    pruneStep m key k = none := by
  unfold pruneStep
  cases hmk : m key with
  | none => exact h
  | some item =>
    dsimp only
    split
    · simp only [mapUpdate]
      split
      · rfl
      · exact h
    · exact h

theorem pruneStep_eq_or_none (m : SharedMapping) (key k : String) :
    pruneStep m key k = m k ∨ pruneStep m key k = none := by
  unfold pruneStep
  cases hmk : m key with
  | none => left; rfl
  | some item =>
    dsimp only
    split
    · simp only [mapUpdate]
      split
      · right; rfl
      · left; rfl
    · left; rfl

theorem pruneSharedMapping_none : ∀ (keys : List String) (m : SharedMapping) (k : String),
    m k = none → pruneSharedMapping m keys k = none := by
  intro keys
  induction keys with
  | nil => intro m k h; exact h
  | cons key rest ih =>
    intro m k h
    simp only [pruneSharedMapping, List.foldl_cons]
    exact ih (pruneStep m key) k (pruneStep_none m key k h)

theorem prune_removes_open_orphan :
    ∀ (keys : List String) (m : SharedMapping) (k : String) (e : CatalogNode),
      k ∈ keys → m k = some e → e.isOpen = true →
      ∀ p, p ∈ e.parents → m p = none →
      pruneSharedMapping m keys k = none := by
  intro keys
  induction keys with
  | nil => intro m k e hk; cases hk
  | cons key rest ih =>
    intro m k e hk hm hopen p hp hpn
    simp only [pruneSharedMapping, List.foldl_cons]
    rcases List.mem_cons.mp hk with hkey | hkrest
    · subst hkey
      have hrm : pruneStep m k k = none := by
        unfold pruneStep
        rw [hm]
        dsimp only
        have hcond : (e.isOpen && e.parents.any fun parentId => (m parentId).isNone) = true := by
          rw [hopen]
          simp only [Bool.true_and]
          exact List.any_eq_true.mpr ⟨p, hp, by simp [hpn]⟩
        rw [if_pos hcond]
        simp [mapUpdate]
      exact pruneSharedMapping_none rest (pruneStep m k) k hrm
    · rcases pruneStep_eq_or_none m key k with heq | hnone
      · exact ih (pruneStep m key) k e hkrest (heq.trans hm) hopen p hp
          (pruneStep_none m key p hpn)
      · exact pruneSharedMapping_none rest (pruneStep m key) k hnone

theorem buildStep_foldl_some : ∀ (l : List CatalogNode) (m : SharedMapping) (k : String)
    (e : CatalogNode),
    (l.foldl (fun m item => mapUpdate m item.id (some (clearId item))) m) k = some e →
    m k = some e ∨ ∃ n, n ∈ l ∧ n.id = k ∧ e = clearId n := by
  intro l
  induction l with
  | nil => intro m k e h; left; exact h
  | cons x rest ih =>
    intro m k e h
    simp only [List.foldl_cons] at h
    rcases ih _ k e h with h1 | ⟨n, hn, hid, he⟩
    · by_cases hk : k = x.id
      · simp only [mapUpdate, if_pos hk] at h1
        right
        exact ⟨x, List.mem_cons_self _ _, hk.symm, (Option.some.injEq _ _).mp h1.symm⟩
      · left
        simpa only [mapUpdate, if_neg hk] using h1
    · right
      exact ⟨n, List.mem_cons_of_mem _ hn, hid, he⟩

theorem buildSharedMapping_some (l : List CatalogNode) (k : String) (e : CatalogNode)
    (h : buildSharedMapping l k = some e) :
    ∃ n, n ∈ l ∧ n.id = k ∧ e = clearId n := by
  rcases buildStep_foldl_some l (fun _ => none) k e h with h1 | h2
  · exact absurd h1 (by simp)
  · exact h2

theorem buildStep_foldl_preserve : ∀ (l : List CatalogNode) (m : SharedMapping) (k : String),
    (∀ n, n ∈ l → n.id ≠ k) →
    (l.foldl (fun m item => mapUpdate m item.id (some (clearId item))) m) k = m k := by
  intro l
  induction l with
  | nil => intro m k _; rfl
  | cons x rest ih =>
    intro m k hne
    simp only [List.foldl_cons]
    rw [ih _ k fun n hn => hne n (List.mem_cons_of_mem _ hn)]
    simp only [mapUpdate]
    rw [if_neg fun hk => hne x (List.mem_cons_self _ _) hk.symm]

theorem buildStep_foldl_mem : ∀ (l : List CatalogNode) (m : SharedMapping) (n : CatalogNode),
    n ∈ l → (l.map CatalogNode.id).Nodup →
    (l.foldl (fun m item => mapUpdate m item.id (some (clearId item))) m) n.id =
      some (clearId n) := by
  intro l
  induction l with
  | nil => intro m n hn; cases hn
  | cons x rest ih =>
    intro m n hn hnd
    simp only [List.map_cons, List.nodup_cons] at hnd
    simp only [List.foldl_cons]
    rcases List.mem_cons.mp hn with rfl | hr
    · rw [buildStep_foldl_preserve rest _ n.id
        fun q hq hqe => hnd.1 (hqe ▸ List.mem_map_of_mem CatalogNode.id hq)]
      simp [mapUpdate]
    · exact ih _ n hr hnd.2

theorem buildSharedMapping_mem (l : List CatalogNode) (n : CatalogNode)
    (hn : n ∈ l) (hnd : (l.map CatalogNode.id).Nodup) :
    buildSharedMapping l n.id = some (clearId n) :=
  buildStep_foldl_mem l _ n hn hnd

theorem buildSharedMapping_some_mem_ids (l : List CatalogNode) (k : String) (e : CatalogNode)
    (h : buildSharedMapping l k = some e) : k ∈ l.map CatalogNode.id := by
  rcases buildSharedMapping_some l k e h with ⟨n, hn, hid, _⟩
  exact hid ▸ List.mem_map_of_mem CatalogNode.id hn

theorem mem_dedupFirstAux : ∀ (l seen : List String) (k : String),
    k ∈ l → k ∈ seen ∨ k ∈ dedupFirstAux seen l := by
  intro l
  induction l with
  | nil => intro seen k h; cases h
  | cons a rest ih =>
    intro seen k h
    by_cases ha : a ∈ seen
    · simp only [dedupFirstAux, if_pos ha]
      rcases List.mem_cons.mp h with rfl | hr
      · left; exact ha
      · exact ih seen k hr
    · simp only [dedupFirstAux, if_neg ha]
      rcases List.mem_cons.mp h with rfl | hr
      · right; exact List.mem_cons_self _ _
      · rcases ih (a :: seen) k hr with hs | hd
        · rcases List.mem_cons.mp hs with rfl | hs2
          · right; exact List.mem_cons_self _ _
          · left; exact hs2
        · right; exact List.mem_cons_of_mem _ hd

theorem mem_dedupFirst (l : List String) (k : String) (h : k ∈ l) : k ∈ dedupFirst l := by
  rcases mem_dedupFirstAux l [] k h with hs | hd
  · cases hs
  · exact hd

theorem sharedMappingPre_some_mem_keys (sharedOnly : String → Bool)
    (catalog : List CatalogNode) (k : String) (e : CatalogNode)
    (h : sharedMappingPre sharedOnly catalog k = some e) :
    k ∈ sharedKeys sharedOnly catalog :=
  mem_dedupFirst _ _ (buildSharedMapping_some_mem_ids _ _ _ h)

theorem pruneStep_some (m : SharedMapping) (key k : String) (e : CatalogNode)
    (h : pruneStep m key k = some e) : m k = some e := by
  unfold pruneStep at h
  cases hmk : m key with
  | none => rw [hmk] at h; exact h
  | some item =>
    rw [hmk] at h
    dsimp only at h
    by_cases hc : (item.isOpen && item.parents.any fun parentId => (m parentId).isNone) = true
    · rw [if_pos hc] at h
      simp only [mapUpdate] at h
      by_cases hk : k = key
      · rw [if_pos hk] at h; cases h
      · rwa [if_neg hk] at h
    · rwa [if_neg hc] at h

theorem pruneSharedMapping_some : ∀ (keys : List String) (m : SharedMapping) (k : String)
    (e : CatalogNode), pruneSharedMapping m keys k = some e → m k = some e := by
  intro keys
  induction keys with
  | nil => intro m k e h; exact h
  | cons key rest ih =>
    intro m k e h
    simp only [pruneSharedMapping, List.foldl_cons] at h
    exact pruneStep_some m key k e (ih _ k e h)

theorem pruneStep_remove_inversion (m : SharedMapping) (key k : String) (e : CatalogNode)
    (hm : m k = some e) (h : pruneStep m key k = none) :
    e.isOpen = true ∧ ∃ p, p ∈ e.parents ∧ m p = none := by
  unfold pruneStep at h
  cases hmk : m key with
  | none => rw [hmk] at h; dsimp only at h; rw [hm] at h; cases h
  | some item =>
    rw [hmk] at h
    dsimp only at h
    by_cases hc : (item.isOpen && item.parents.any fun parentId => (m parentId).isNone) = true
    · rw [if_pos hc] at h
      simp only [mapUpdate] at h
      by_cases hk : k = key
      · subst hk
        rw [hm] at hmk
        cases hmk
        simp only [Bool.and_eq_true] at hc
        obtain ⟨ho, ha⟩ := hc
        rcases List.any_eq_true.mp ha with ⟨p, hp, hpn⟩
        exact ⟨ho, p, hp, Option.isNone_iff_eq_none.mp hpn⟩
      · rw [if_neg hk] at h; rw [hm] at h; cases h
    · rw [if_neg hc] at h; rw [hm] at h; cases h

theorem prune_removed_reason : ∀ (keys : List String) (m : SharedMapping) (k : String)
    (e : CatalogNode), pruneSharedMapping m keys k = none → m k = some e →
    e.isOpen = true ∧ ∃ p, p ∈ e.parents ∧ pruneSharedMapping m keys p = none := by
  intro keys
  induction keys with
  | nil =>
    intro m k e h hm
    simp only [pruneSharedMapping, List.foldl_nil] at h
    rw [hm] at h
    cases h
  | cons key rest ih =>
    intro m k e h hm
    simp only [pruneSharedMapping, List.foldl_cons] at h ⊢
    cases hstep : pruneStep m key k with
    | some e2 =>
      have he2 : e2 = e := by
        have := pruneStep_some m key k e2 hstep
        rw [hm] at this
        exact ((Option.some.injEq _ _).mp this).symm
      subst he2
      rcases ih (pruneStep m key) k e2 h hstep with ⟨ho, p, hp, hpn⟩
      exact ⟨ho, p, hp, hpn⟩
    | none =>
      rcases pruneStep_remove_inversion m key k e hm hstep with ⟨ho, p, hp, hpn⟩
      exact ⟨ho, p, hp, pruneSharedMapping_none rest _ p (pruneStep_none m key p hpn)⟩

theorem flatten_serialize_props (filt : CatalogNode → Bool) (pf : String → Bool) :
    ∀ (fuel : Nat) (l : List CatalogNode), sizeOf l ≤ fuel →
      ∀ n', n' ∈ flattenCatalog (serializeToJson filt pf l) →
        ∃ pr : List String, n'.props = pr.filter pf := by
  intro fuel
  induction fuel with
  | zero =>
    intro l hl
    exfalso
    cases l <;> simp at hl
  | succ fuel ih =>
    intro l hl n' hmem
    match l with
    | [] => simp [serializeToJson, flattenCatalog] at hmem
    | CatalogNode.mk i e o us hld u par pr its :: rest =>
      have hsz : sizeOf its ≤ fuel ∧ sizeOf rest ≤ fuel := by
        simp only [List.cons.sizeOf_spec, CatalogNode.mk.sizeOf_spec] at hl
        omega
      simp only [serializeToJson] at hmem
      by_cases hf : filt (CatalogNode.mk i e o us hld u par pr its)
      · rw [if_pos hf] at hmem
        simp only [flattenCatalog] at hmem
        rcases List.mem_cons.mp hmem with rfl | h2
        · exact ⟨pr, rfl⟩
        · rcases List.mem_append.mp h2 with hA | hB
          · exact ih its hsz.1 n' hA
          · exact ih rest hsz.2 n' hB
      · rw [if_neg hf] at hmem
        exact ih rest hsz.2 n' hmem

theorem clearId_props (n : CatalogNode) : (clearId n).props = n.props := by
  cases n
  rfl

theorem sharedPropertyFilter_name (sharedOnly : String → Bool) :
    sharedPropertyFilter sharedOnly "name" = false := by
  simp [sharedPropertyFilter, combineFilters]

/-- Claim C1: in `addSharedMembers`, every entry of the shared-members object
whose `isOpen` is true and that has at least one ancestor id absent from the
object is removed (set to undefined) by the ancestor-pruning pass, so the
emitted fragment never carries it; in particular, for open group A containing
closed group B containing item C with `isOpen` true, the emitted mapping
contains A as an open entry and maps both B and C to nothing. -/
theorem claim1_addSharedMembers_ancestor_pruning :
    (∀ (sharedOnly : String → Bool) (catalog : List CatalogNode) (k : String)
        (e : CatalogNode),
        sharedMappingPre sharedOnly catalog k = some e → e.isOpen = true →
        ∀ p, p ∈ e.parents → sharedMappingPre sharedOnly catalog p = none →
        sharedMappingFinal sharedOnly catalog k = none) ∧
    (∀ (sharedOnly : String → Bool) (catalog : List CatalogNode),
        addSharedMembers sharedOnly catalog = none ∨
        addSharedMembers sharedOnly catalog =
          some (sharedMappingFinal sharedOnly catalog)) ∧
    addSharedMembers abcSharedOnly abcCatalog =
      some (sharedMappingFinal abcSharedOnly abcCatalog) ∧
    sharedMappingFinal abcSharedOnly abcCatalog "A" =
      some (CatalogNode.mk "" false true false false none [] [] []) ∧
    sharedMappingFinal abcSharedOnly abcCatalog "B" = none ∧
    sharedMappingFinal abcSharedOnly abcCatalog "C" = none := by
  refine ⟨?_, ?_, ?_, ?_, ?_, ?_⟩
  · intro sharedOnly catalog k e hm hopen p hp hpn
    exact prune_removes_open_orphan _ _ k e
      (sharedMappingPre_some_mem_keys _ _ k e hm) hm hopen p hp hpn
  · intro sharedOnly catalog
    unfold addSharedMembers
    split
    · left; rfl
    · right; rfl
  · have hkeys : sharedKeys abcSharedOnly abcCatalog = ["A", "C"] := by
      simp [sharedKeys, catalogForSharingList, abcCatalog, nodeA, nodeB, nodeC,
        serializeToJson, flattenCatalog, combineFilters, noLocalData,
        sharedPropertyFilter, abcSharedOnly, dedupFirst, dedupFirstAux,
        CatalogNode.id, CatalogNode.isEnabled, CatalogNode.isOpen, CatalogNode.hasLocalData]
    unfold addSharedMembers
    rw [hkeys]
    simp
  · simp [sharedMappingFinal, sharedMappingPre, sharedKeys, catalogForSharingList,
      abcCatalog, nodeA, nodeB, nodeC, serializeToJson, flattenCatalog, combineFilters,
      noLocalData, sharedPropertyFilter, abcSharedOnly, buildSharedMapping, dedupFirst,
      dedupFirstAux, pruneSharedMapping, pruneStep, mapUpdate, clearId,
      CatalogNode.id, CatalogNode.isEnabled, CatalogNode.isOpen, CatalogNode.hasLocalData,
      CatalogNode.parents]
  · simp [sharedMappingFinal, sharedMappingPre, sharedKeys, catalogForSharingList,
      abcCatalog, nodeA, nodeB, nodeC, serializeToJson, flattenCatalog, combineFilters,
      noLocalData, sharedPropertyFilter, abcSharedOnly, buildSharedMapping, dedupFirst,
      dedupFirstAux, pruneSharedMapping, pruneStep, mapUpdate, clearId,
      CatalogNode.id, CatalogNode.isEnabled, CatalogNode.isOpen, CatalogNode.hasLocalData,
      CatalogNode.parents]
  · simp [sharedMappingFinal, sharedMappingPre, sharedKeys, catalogForSharingList,
      abcCatalog, nodeA, nodeB, nodeC, serializeToJson, flattenCatalog, combineFilters,
      noLocalData, sharedPropertyFilter, abcSharedOnly, buildSharedMapping, dedupFirst,
      dedupFirstAux, pruneSharedMapping, pruneStep, mapUpdate, clearId,
      CatalogNode.id, CatalogNode.isEnabled, CatalogNode.isOpen, CatalogNode.hasLocalData,
      CatalogNode.parents]

theorem claim1_addSharedMembers_ancestor_pruning_witness :
    sharedMappingFinal abcSharedOnly abcCatalog "C" = none :=
  claim1_addSharedMembers_ancestor_pruning.1 abcSharedOnly abcCatalog "C"
    (CatalogNode.mk "" false true false false none ["A", "B"] [] [])
    (by simp [sharedMappingPre, sharedKeys, catalogForSharingList,
      abcCatalog, nodeA, nodeB, nodeC, serializeToJson, flattenCatalog, combineFilters,
      noLocalData, sharedPropertyFilter, abcSharedOnly, buildSharedMapping,
      mapUpdate, clearId, CatalogNode.id, CatalogNode.isEnabled, CatalogNode.isOpen,
      CatalogNode.hasLocalData])
    rfl "B" (by decide)
    (by simp [sharedMappingPre, sharedKeys, catalogForSharingList,
      abcCatalog, nodeA, nodeB, nodeC, serializeToJson, flattenCatalog, combineFilters,
      noLocalData, sharedPropertyFilter, abcSharedOnly, buildSharedMapping,
      mapUpdate, clearId, CatalogNode.id, CatalogNode.isEnabled, CatalogNode.isOpen,
      CatalogNode.hasLocalData])

/-- Claim C4, counterexample to the exactness part: in the A/B/C catalog the
flattened serialized node C passes the isEnabled-or-isOpen filter, yet the
emitted `sharedCatalogMembers` fragment does not contain an entry for C (the
ancestor-pruning pass removed it). -/
theorem claim4_shared_members_projection_counterexample :
    CatalogNode.mk "C" false true false false none ["A", "B"] [] [] ∈
        catalogForSharingList abcSharedOnly abcCatalog ∧
    (CatalogNode.mk "C" false true false false none ["A", "B"] [] []).isOpen = true ∧
    addSharedMembers abcSharedOnly abcCatalog =
      some (sharedMappingFinal abcSharedOnly abcCatalog) ∧
    sharedMappingFinal abcSharedOnly abcCatalog "C" = none := by
  refine ⟨?_, rfl, ?_, ?_⟩
  · simp [catalogForSharingList, abcCatalog, nodeA, nodeB, nodeC, serializeToJson,
      flattenCatalog, combineFilters, noLocalData, sharedPropertyFilter, abcSharedOnly,
      CatalogNode.isEnabled, CatalogNode.isOpen, CatalogNode.hasLocalData]
  · have hkeys : sharedKeys abcSharedOnly abcCatalog = ["A", "C"] := by
      simp [sharedKeys, catalogForSharingList, abcCatalog, nodeA, nodeB, nodeC,
        serializeToJson, flattenCatalog, combineFilters, noLocalData,
        sharedPropertyFilter, abcSharedOnly, dedupFirst, dedupFirstAux,
        CatalogNode.id, CatalogNode.isEnabled, CatalogNode.isOpen, CatalogNode.hasLocalData]
    unfold addSharedMembers
    rw [hkeys]
    simp
  · simp [sharedMappingFinal, sharedMappingPre, sharedKeys, catalogForSharingList,
      abcCatalog, nodeA, nodeB, nodeC, serializeToJson, flattenCatalog, combineFilters,
      noLocalData, sharedPropertyFilter, abcSharedOnly, buildSharedMapping, dedupFirst,
      dedupFirstAux, pruneSharedMapping, pruneStep, mapUpdate, clearId,
      CatalogNode.id, CatalogNode.isEnabled, CatalogNode.isOpen, CatalogNode.hasLocalData,
      CatalogNode.parents]

/-- Claim C4 (amended): before the ancestor-pruning pass the
sharedCatalogMembers object is keyed by node id and its entries are exactly the
flattened serialized catalog nodes with isEnabled or isOpen true (each with its
id cleared); the pruning pass only removes entries, and only open entries with
an ancestor mapped to nothing; and the name property is never present in any
emitted entry, the shared-only property filter being combined with a predicate
rejecting it. -/
theorem claim4_shared_members_projection :
    (∀ (sharedOnly : String → Bool) (catalog : List CatalogNode) (n : CatalogNode),
        n ∈ catalogForSharingList sharedOnly catalog ↔
          n ∈ flattenCatalog
              (serializeToJson (combineFilters [noLocalData])
                (sharedPropertyFilter sharedOnly) catalog) ∧
            (n.isEnabled || n.isOpen) = true) ∧
    (∀ (sharedOnly : String → Bool) (catalog : List CatalogNode) (k : String)
        (e : CatalogNode),
        sharedMappingPre sharedOnly catalog k = some e →
        ∃ n, n ∈ catalogForSharingList sharedOnly catalog ∧ n.id = k ∧ e = clearId n) ∧
    (∀ (sharedOnly : String → Bool) (catalog : List CatalogNode) (n : CatalogNode),
        ((catalogForSharingList sharedOnly catalog).map CatalogNode.id).Nodup →
        n ∈ catalogForSharingList sharedOnly catalog →
        sharedMappingPre sharedOnly catalog n.id = some (clearId n)) ∧
    (∀ (sharedOnly : String → Bool) (catalog : List CatalogNode) (k : String)
        (e : CatalogNode),
        sharedMappingFinal sharedOnly catalog k = some e →
        sharedMappingPre sharedOnly catalog k = some e) ∧
    (∀ (sharedOnly : String → Bool) (catalog : List CatalogNode) (k : String)
        (e : CatalogNode),
        sharedMappingFinal sharedOnly catalog k = none →
        sharedMappingPre sharedOnly catalog k = some e →
        e.isOpen = true ∧ ∃ p, p ∈ e.parents ∧ sharedMappingFinal sharedOnly catalog p = none) ∧
    (∀ (sharedOnly : String → Bool) (catalog : List CatalogNode) (k : String)
        (e : CatalogNode),
        sharedMappingFinal sharedOnly catalog k = some e → "name" ∉ e.props) := by
  refine ⟨?_, ?_, ?_, ?_, ?_, ?_⟩
  · intro sharedOnly catalog n
    simp [catalogForSharingList, List.mem_filter]
  · intro sharedOnly catalog k e hm
    exact buildSharedMapping_some _ k e hm
  · intro sharedOnly catalog n hnd hn
    exact buildSharedMapping_mem _ n hn hnd
  · intro sharedOnly catalog k e hm
    exact pruneSharedMapping_some _ _ k e hm
  · intro sharedOnly catalog k e hnone hpre
    exact prune_removed_reason _ _ k e hnone hpre
  · intro sharedOnly catalog k e hm hmem
    rcases buildSharedMapping_some _ k e (pruneSharedMapping_some _ _ k e hm) with
      ⟨n, hn, _, he⟩
    have hn2 : n ∈ flattenCatalog
        (serializeToJson (combineFilters [noLocalData])
          (sharedPropertyFilter sharedOnly) catalog) :=
      (List.mem_filter.mp hn).1
    rcases flatten_serialize_props (combineFilters [noLocalData])
      (sharedPropertyFilter sharedOnly) (sizeOf catalog) catalog le_rfl n hn2 with ⟨pr, hpr⟩
    rw [he, clearId_props, hpr] at hmem
    have := (List.mem_filter.mp hmem).2
    rw [sharedPropertyFilter_name] at this
    cases this

theorem addUserAddedWalk_spec_aux :
    ∀ (fuel : Nat) (l : List CatalogNode) (parent : Option CatalogNode)
      (rejections : List CatalogNode), sizeOf l ≤ fuel →
      addUserAddedWalk parent l rejections =
        (keptForest parent l, rejections ++ rejectedNodes parent l) := by
  intro fuel
  induction fuel with
  | zero =>
    intro l parent rejections hl
    exfalso
    cases l <;> simp at hl
  | succ fuel ih =>
    intro l parent rejections hl
    match l with
    | [] => simp [addUserAddedWalk, keptForest, rejectedNodes]
    | CatalogNode.mk i e o us hld u par pr its :: rest =>
      have hsz : sizeOf its ≤ fuel ∧ sizeOf rest ≤ fuel := by
        simp only [List.cons.sizeOf_spec, CatalogNode.mk.sizeOf_spec] at hl
        omega
      simp only [addUserAddedWalk, keptForest, rejectedNodes]
      have hc : ((rememberRejectionsStep noLocalData rejections
            (CatalogNode.mk i e o us hld u par pr its)).1 &&
          userSuppliedOnly (CatalogNode.mk i e o us hld u par pr its) &&
          parentUrlAbsent parent (CatalogNode.mk i e o us hld u par pr its))
          = userAddedItemFilter parent (CatalogNode.mk i e o us hld u par pr its) := by
        simp [userAddedItemFilter, combineFilters, rememberRejectionsStep, Bool.and_assoc]
      rw [hc]
      by_cases hf : userAddedItemFilter parent (CatalogNode.mk i e o us hld u par pr its) = true
      · have hnl : noLocalData (CatalogNode.mk i e o us hld u par pr its) = true := by
          simp [userAddedItemFilter, combineFilters] at hf
          exact hf.1
        rw [if_pos hf, if_pos hf, if_pos hf]
        have hstep : (rememberRejectionsStep noLocalData rejections
            (CatalogNode.mk i e o us hld u par pr its)).2 = rejections := by
          simp [rememberRejectionsStep, hnl]
        rw [hstep, ih its (some (CatalogNode.mk i e o us hld u par pr its)) rejections hsz.1]
        rw [ih rest parent _ hsz.2]
        simp [hnl, List.append_assoc]
      · rw [if_neg hf, if_neg hf, if_neg hf]
        rw [ih rest parent _ hsz.2]
        by_cases hnl : noLocalData (CatalogNode.mk i e o us hld u par pr its) = true
        · simp [rememberRejectionsStep, hnl]
        · simp only [Bool.not_eq_true] at hnl
          simp [rememberRejectionsStep, hnl, List.append_assoc]

/-- Claim C3: the catalog init fragment produced by `addUserAddedCatalog`
contains exactly the nodes passing the composed filter chain — user-supplied
nodes passing the no-local-data filter whose parent is absent or has no url
(the only url the code compares against is the parent url the child would be
regenerated from) — and every node rejected by the no-local-data filter is
appended to the side rejections list without the wrapper altering the filter
verdict. -/
theorem claim3_user_added_catalog_filters :
    (∀ (filterFn : CatalogNode → Bool) (rejections : List CatalogNode)
        (item : CatalogNode),
        (rememberRejectionsStep filterFn rejections item).1 = filterFn item ∧
        (rememberRejectionsStep filterFn rejections item).2 =
          (if filterFn item = true then rejections else rejections ++ [item])) ∧
    (∀ (parent : Option CatalogNode) (n : CatalogNode),
        userAddedItemFilter parent n = true ↔
          (noLocalData n = true ∧ n.isUserSupplied = true ∧
            (parent = none ∨ ∃ p, parent = some p ∧ p.url = none))) ∧
    (∀ (parent : Option CatalogNode) (catalog rejections : List CatalogNode),
        addUserAddedWalk parent catalog rejections =
          (keptForest parent catalog, rejections ++ rejectedNodes parent catalog)) ∧
    (∀ catalog : List CatalogNode,
        addUserAddedCatalog catalog =
          (if (keptForest none catalog).length > 0 then some (keptForest none catalog)
            else none,
           rejectedNodes none catalog)) := by
  refine ⟨?_, ?_, ?_, ?_⟩
  · intro filterFn rejections item
    exact ⟨rfl, rfl⟩
  · intro parent n
    cases parent with
    | none =>
      simp [userAddedItemFilter, combineFilters, parentUrlAbsent, userSuppliedOnly]
    | some p =>
      simp [userAddedItemFilter, combineFilters, parentUrlAbsent, userSuppliedOnly,
        Option.isNone_iff_eq_none]
  · intro parent catalog rejections
    exact addUserAddedWalk_spec_aux (sizeOf catalog) catalog parent rejections le_rfl
  · intro catalog
    unfold addUserAddedCatalog
    rw [addUserAddedWalk_spec_aux (sizeOf catalog) catalog none [] le_rfl]
    simp

/-- Claim C2: whenever the short-link capability check `canShorten` is false,
the feedback share path yields exactly the full-length link built by
`buildShareLink` — whose fragment starts with the start= parameter carrying the
complete share document and which is never of the token form share=<token> —
and the short/full choice is the capability check alone, with no error handling
around the shorten call. -/
theorem claim2_short_link_fallback :
    (∀ t : Terria, canShorten t = false →
        sendFeedbackShareLink true t = FeedbackShareLink.link (buildShareLink t) ∧
        (buildShareLink t).isStartForm = true ∧
        (buildShareLink t).isTokenForm = false ∧
        (buildShareLink t).fragmentParams.head? =
          some ("start", some (FragVal.doc (getShareData t)))) ∧
    (∀ (sendShareURL : Bool) (t : Terria),
        sendFeedbackShareLink sendShareURL t =
          if sendShareURL then
            if canShorten t then
              (match buildShortShareLink t with
                | some uri => FeedbackShareLink.link uri
                | none => FeedbackShareLink.unavailable)
            else FeedbackShareLink.link (buildShareLink t)
          else FeedbackShareLink.notShared) := by
  constructor
  · intro t hc
    refine ⟨?_, rfl, rfl, rfl⟩
    simp [sendFeedbackShareLink, hc]
  · intro sendShareURL t
    rfl

theorem claim2_short_link_fallback_witness :
    sendFeedbackShareLink true claim2Terria =
      FeedbackShareLink.link (buildShareLink claim2Terria) ∧
    (buildShareLink claim2Terria).isTokenForm = false :=
  ⟨(claim2_short_link_fallback.1 claim2Terria rfl).1, (claim2_short_link_fallback.1 claim2Terria rfl).2.2.1⟩

/-- Claim C5, evaluated at the failing input: `buildShareLink` does produce a
start=<share document> fragment and `buildShortShareLink` a share=<token>
fragment, but the whitelisted user property hideExplorerPanel present in the
user properties is NOT preserved under its own name: the source object literal
`{ key: terria.userProperties[key] }` appends parameters literally named
"key", so no fragment parameter is named after any whitelisted property. -/
theorem claim5_share_link_uri_surface :
    (buildShareLink shareTerriaExample).fragmentParams =
      [("start", some (FragVal.doc (getShareData shareTerriaExample))),
        ("key", some (FragVal.str "1")),
        ("key", none)] ∧
    ((buildShareLink shareTerriaExample).fragmentParams.all
      fun p => p.1 != "hideExplorerPanel" && p.1 != "activeTabId") = true ∧
    (buildShareLink shareTerriaExample).isStartForm = true ∧
    canShorten shareTerriaExample = true ∧
    buildShortShareLink shareTerriaExample =
      some ⟨"appbase", [("share", some (FragVal.token "TOKEN"))]⟩ ∧
    ShareUri.isTokenForm ⟨"appbase", [("share", some (FragVal.token "TOKEN"))]⟩ = true := by
  refine ⟨?_, ?_, rfl, rfl, rfl, rfl⟩
  · simp [buildShareLink, userPropWhiteList, feedbackUserProps, shareTerriaExample]
  · simp [buildShareLink, userPropWhiteList, feedbackUserProps, shareTerriaExample]

/-- Claim C9: in the pickedFeatures fragment, the entities array contains
exactly the picked features having no imagery layer, each recorded as its name
plus the `hashEntity` digest over the entity and the current clock; a feature
backed by an imagery layer never contributes an entry. -/
theorem claim9_picked_features_vector_only :
    ∀ (t : Terria) (pf : PickedState),
      t.pickedFeatures = some pf → 0 < pf.features.length →
      addFeaturePicking t = some (InitSource.pickedFeatures
        ⟨pf.providerCoords, pf.pickLat, pf.pickLng, pf.pickHeight,
          t.selectedFeature.map fun f => ⟨f.name, hashEntity f t.clock⟩,
          (pf.features.filter fun f => f.imageryLayer.isNone).map
            fun entity => ⟨entity.name, hashEntity entity t.clock⟩⟩) ∧
      (∀ r : EntityRef,
        r ∈ ((pf.features.filter fun f => f.imageryLayer.isNone).map
            fun entity => (⟨entity.name, hashEntity entity t.clock⟩ : EntityRef)) ↔
          ∃ f, f ∈ pf.features ∧ f.imageryLayer = none ∧
            r = ⟨f.name, hashEntity f t.clock⟩) := by
  intro t pf hpf hlen
  constructor
  · simp [addFeaturePicking, hpf, hlen]
  · intro r
    rw [List.mem_map]
    constructor
    · rintro ⟨entity, hent, rfl⟩
      rw [List.mem_filter] at hent
      exact ⟨entity, hent.1, Option.isNone_iff_eq_none.mp hent.2, rfl⟩
    · rintro ⟨f, hf, hnone, rfl⟩
      exact ⟨f, List.mem_filter.mpr ⟨hf, Option.isNone_iff_eq_none.mpr hnone⟩, rfl⟩

theorem claim9_picked_features_vector_only_witness :
    addFeaturePicking pickingTerriaExample = some (InitSource.pickedFeatures
      ⟨"pc", 1, 2, 3, none, [⟨"vector", "y@5:7"⟩]⟩) := by
  have h := (claim9_picked_features_vector_only pickingTerriaExample pickedExample rfl (by decide)).1
  simpa [pickedExample, pickingTerriaExample, hashEntity, String.intercalate] using h

theorem featureServer_not_mapServer (url : String)
    (hf : matchesFeatureServerSuffix url = true) : matchesMapServerSuffix url = false := by
  by_contra hm
  rw [Bool.not_eq_false] at hm
  simp only [matchesFeatureServerSuffix, Bool.or_eq_true, List.isSuffixOf_iff_suffix] at hf
  simp only [matchesMapServerSuffix, Bool.or_eq_true, List.isSuffixOf_iff_suffix] at hm
  rcases hf with hf | hf <;> rcases hm with hm | hm <;>
    rcases List.suffix_or_suffix_of_suffix hm hf with h | h <;>
      exact absurd h (by decide)

/-- Claim C7: the `_load` dispatch of the ArcGIS catalog group is a pure
function of the url alone that selects the MapServer loader exactly when the
url matches the case-insensitive /MapServer (optionally slash-terminated)
suffix, the FeatureServer loader exactly when it matches the /FeatureServer
suffix, and the generic REST loader otherwise. -/
theorem claim7_dispatch_pure_of_url :
    ∀ url : String,
      (arcGisLoadDispatch url = ArcGisLoader.mapServer ↔
        matchesMapServerSuffix url = true) ∧
      (arcGisLoadDispatch url = ArcGisLoader.featureServer ↔
        matchesFeatureServerSuffix url = true) ∧
      (arcGisLoadDispatch url = ArcGisLoader.genericRest ↔
        (matchesMapServerSuffix url = false ∧ matchesFeatureServerSuffix url = false)) := by
  intro url
  by_cases hm : matchesMapServerSuffix url = true
  · have hf : matchesFeatureServerSuffix url = false := by
      by_contra hc
      rw [Bool.not_eq_false] at hc
      rw [featureServer_not_mapServer url hc] at hm
      cases hm
    simp [arcGisLoadDispatch, hm, hf]
  · rw [Bool.not_eq_true] at hm
    by_cases hfs : matchesFeatureServerSuffix url = true
    · simp [arcGisLoadDispatch, hm, hfs]
    · rw [Bool.not_eq_true] at hfs
      simp [arcGisLoadDispatch, hm, hfs]

theorem claim7_dispatch_pure_of_url_witness :
    arcGisLoadDispatch "http://example.com/rest/services/Foo/FeatureServer" =
      ArcGisLoader.featureServer :=
  ((claim7_dispatch_pure_of_url "http://example.com/rest/services/Foo/FeatureServer").2.1).mpr (by decide)

/-- Claim C6: for the generic REST load of the ArcGIS group, a validation
failure (a response that is null or has neither folders nor services) and a
transport failure both make `loadRest` produce a typed `TerriaError` rejection
(never a synchronous throw, since the function is total into `Except`), and on
any failure no child nodes are added to the group. -/
theorem claim6_load_errors_deferred_typed :
    (∀ url : String,
        loadRest url (Except.error ()) = Except.error groupNotAvailableError ∧
        loadRestChildrenAdded url (Except.error ()) = []) ∧
    (∀ url : String,
        loadRest url (Except.ok none) = Except.error groupNotAvailableError ∧
        loadRestChildrenAdded url (Except.ok none) = []) ∧
    (∀ (url : String) (j : ServiceJson), j.folders = none → j.services = none →
        loadRest url (Except.ok (some j)) = Except.error groupNotAvailableError ∧
        loadRestChildrenAdded url (Except.ok (some j)) = []) ∧
    (∀ (url : String) (response : Except Unit (Option ServiceJson)) (e : TerriaError),
        loadRest url response = Except.error e →
        e = groupNotAvailableError ∧ loadRestChildrenAdded url response = []) := by
  refine ⟨?_, ?_, ?_, ?_⟩
  · intro url
    exact ⟨rfl, rfl⟩
  · intro url
    exact ⟨rfl, rfl⟩
  · intro url j hfold hserv
    constructor
    · simp [loadRest, loadRestThen, hfold, hserv]
    · simp [loadRestChildrenAdded, loadRestThen, hfold, hserv]
  · intro url response e h
    match response with
    | Except.error _ =>
      simp [loadRest] at h
      exact ⟨h.symm, rfl⟩
    | Except.ok serviceJson =>
      simp only [loadRest] at h
      cases hthen : loadRestThen url serviceJson with
      | error e2 =>
        rw [hthen] at h
        simp at h
        simp [loadRestChildrenAdded, hthen]
        exact h.symm
      | ok children =>
        rw [hthen] at h
        cases h

/-- Claim C8 counterexample: for base path "Foo" and upstream identifier
"Foo/Bar", the code names the child "Bar", while stripping exactly the base
path prefix as the claim words it would give "/Bar" — the code also removes
the separator character that follows the prefix. -/
theorem claim8_child_naming_counterexample :
    (createGroupChild "http://example.com/rest/services" "Foo" "Foo/Bar").name = "Bar" ∧
    claimChildName "Foo" "Foo/Bar" = "/Bar" ∧
    ("Bar" : String) ≠ "/Bar" := by
  refine ⟨?_, ?_, ?_⟩ <;> decide

/-- Claim C8 (amended): the display name of a child created for an upstream
folder or service identifier is the identifier passed through
`removePathFromName` and then underscore-replacement; when the base path is
non-empty and the identifier begins with it, `removePathFromName` strips the
prefix AND the immediately following separator character (basePath.length + 1
leading characters); identifiers that do not begin with the base path, or any
identifier when the base path is empty, are kept whole. -/
theorem claim8_child_naming :
    (∀ parentUrl basePath folderName : String,
        (createGroupChild parentUrl basePath folderName).name =
          replaceUnderscores (removePathFromName basePath folderName)) ∧
    (∀ (parentUrl basePath : String) (service : ArcService) (child : ChildGroup),
        createMapOrFeatureServerChild parentUrl basePath service = some child →
        child.name = replaceUnderscores (removePathFromName basePath service.name)) ∧
    (∀ basePath name : String, basePath ≠ "" → strIsPrefixOf basePath name = true →
        removePathFromName basePath name = strDrop name (basePath.length + 1)) ∧
    (∀ basePath name : String, basePath ≠ "" → strIsPrefixOf basePath name = false →
        removePathFromName basePath name = name) ∧
    (∀ name : String, removePathFromName "" name = name) := by
  refine ⟨?_, ?_, ?_, ?_, ?_⟩
  · intro parentUrl basePath folderName
    rfl
  · intro parentUrl basePath service child h
    unfold createMapOrFeatureServerChild at h
    split at h
    · cases h
      rfl
    · cases h
  · intro basePath name hne hpre
    unfold removePathFromName
    rw [if_neg hne, if_pos hpre]
  · intro basePath name hne hpre
    unfold removePathFromName
    rw [if_neg hne, if_neg (by simp [hpre])]
  · intro name
    unfold removePathFromName
    rw [if_pos rfl]

theorem claim8_child_naming_witness :
    removePathFromName "Foo" "Foo/Bar" = strDrop "Foo/Bar" ("Foo".length + 1) :=
  claim8_child_naming.2.2.1 "Foo" "Foo/Bar" (by decide) (by decide)

/-- Claim C10: a service entry whose type is neither MapServer nor
FeatureServer is silently skipped (no child, no error), so a valid REST load
produces exactly the folder children followed by the children of the
MapServer/FeatureServer services, in the listing order of the response. -/
theorem claim10_services_skip_invalid :
    (∀ (url basePath : String) (service : ArcService),
        service.type ≠ "MapServer" → service.type ≠ "FeatureServer" →
        createMapOrFeatureServerChild url basePath service = none) ∧
    (∀ (url basePath : String) (services : List ArcService),
        services.filterMap (createMapOrFeatureServerChild url basePath) =
          (services.filter fun s => s.type == "MapServer" || s.type == "FeatureServer").map
            (serviceChild url basePath)) ∧
    (∀ (url : String) (j : ServiceJson), (j.folders.isNone && j.services.isNone) = false →
        loadRest url (Except.ok (some j)) = Except.ok
          ((j.folders.getD []).map (createGroupChild url (getBasePath url)) ++
            ((j.services.getD []).filter fun s =>
                s.type == "MapServer" || s.type == "FeatureServer").map
              (serviceChild url (getBasePath url)))) := by
  have hnone : ∀ (url basePath : String) (service : ArcService),
      service.type ≠ "MapServer" → service.type ≠ "FeatureServer" →
      createMapOrFeatureServerChild url basePath service = none := by
    intro url basePath service hM hF
    unfold createMapOrFeatureServerChild
    rw [if_neg]
    simp [validServerTypes, List.indexOf_cons, hM, hF]
  have hsome : ∀ (url basePath : String) (service : ArcService),
      (service.type = "MapServer" ∨ service.type = "FeatureServer") →
      createMapOrFeatureServerChild url basePath service =
        some (serviceChild url basePath service) := by
    intro url basePath service hor
    unfold createMapOrFeatureServerChild serviceChild
    rcases hor with h | h
    · rw [if_pos]
      · simp [validServerTypes, List.indexOf_cons, h]
      · simp [validServerTypes, List.indexOf_cons, h]
    · have hne : service.type ≠ "MapServer" := by
        rw [h]
        decide
      rw [if_pos]
      · simp [validServerTypes, List.indexOf_cons, h, hne]
      · simp [validServerTypes, List.indexOf_cons, h, hne]
  have hmap : ∀ (url basePath : String) (services : List ArcService),
      services.filterMap (createMapOrFeatureServerChild url basePath) =
        (services.filter fun s => s.type == "MapServer" || s.type == "FeatureServer").map
          (serviceChild url basePath) := by
    intro url basePath services
    induction services with
    | nil => rfl
    | cons s rest ih =>
      by_cases hM : s.type = "MapServer"
      · simp only [List.filterMap_cons, List.filter_cons, hM,
          hsome url basePath s (Or.inl hM), ih]
        simp [hM]
      · by_cases hF : s.type = "FeatureServer"
        · simp only [List.filterMap_cons, List.filter_cons, hF,
            hsome url basePath s (Or.inr hF), ih]
          simp [hF]
        · simp only [List.filterMap_cons, List.filter_cons,
            hnone url basePath s hM hF, ih]
          simp [hM, hF]
  refine ⟨hnone, hmap, ?_⟩
  intro url j hvalid
  simp only [loadRest, loadRestThen, hvalid]
  rw [if_neg (by simp [hvalid])]
  simp only [loadRestChildren, hmap]

theorem claim4_shared_members_projection_witness :
    sharedMappingPre abcSharedOnly abcCatalog
        (CatalogNode.mk "A" false true false false none [] [] []).id =
      some (clearId (CatalogNode.mk "A" false true false false none [] [] [])) :=
  claim4_shared_members_projection.2.2.1 abcSharedOnly abcCatalog
    (CatalogNode.mk "A" false true false false none [] [] [])
    (by simp [catalogForSharingList, abcCatalog, nodeA, nodeB, nodeC, serializeToJson,
      flattenCatalog, combineFilters, noLocalData, sharedPropertyFilter, abcSharedOnly,
      CatalogNode.id, CatalogNode.isEnabled, CatalogNode.isOpen, CatalogNode.hasLocalData])
    (by simp [catalogForSharingList, abcCatalog, nodeA, nodeB, nodeC, serializeToJson,
      flattenCatalog, combineFilters, noLocalData, sharedPropertyFilter, abcSharedOnly,
      CatalogNode.id, CatalogNode.isEnabled, CatalogNode.isOpen, CatalogNode.hasLocalData])

theorem claim6_load_errors_deferred_typed_witness :
    loadRest "http://example.com/rest/services" (Except.ok (some ⟨none, none⟩)) =
      Except.error groupNotAvailableError ∧
    loadRestChildrenAdded "http://example.com/rest/services"
      (Except.ok (some ⟨none, none⟩)) = [] :=
  claim6_load_errors_deferred_typed.2.2.1 "http://example.com/rest/services" ⟨none, none⟩ rfl rfl

theorem claim10_services_skip_invalid_witness :
    loadRest "http://example.com/rest/services" (Except.ok (some arcJsonExample)) =
      Except.ok
        [⟨ChildKind.esriGroup, "F", "http://example.com/rest/services/F"⟩,
          ⟨ChildKind.esriMapServerGroup, "Nested/Map Svc",
            "http://example.com/rest/services/Nested/Map_Svc/MapServer"⟩] := by
  rw [claim10_services_skip_invalid.2.2 "http://example.com/rest/services" arcJsonExample (by decide)]
  exact congrArg Except.ok (by decide)

theorem claim3_user_added_catalog_filters_witness :
    addUserAddedCatalog userAddedExampleCatalog =
      (some [CatalogNode.mk "g" false false true false (some "http://x") [] [] []], []) := by
  rw [claim3_user_added_catalog_filters.2.2.2 userAddedExampleCatalog]
  simp [keptForest, rejectedNodes, userAddedItemFilter, combineFilters, noLocalData,
    userSuppliedOnly, parentUrlAbsent, userAddedExampleCatalog,
    CatalogNode.hasLocalData, CatalogNode.isUserSupplied, CatalogNode.url]
